import Mathlib

/-!
Shallow embedding of the batched upload routine of
`client/src/services/apiUploadService.ts` (the retry variant: chunk into
batches of 10, per-batch base64 encoding, per-batch POST with up to 3
attempts, partial-failure aggregation), together with the browser-side
base64 data-URL round trip used by `convertFileToBase64`.

Modelling conventions:
- JS strings are Lean `String` (or `List Char` where character-level
  reasoning is needed); byte sequences are `List Nat` with each entry
  below 256.
- The network is an oracle `Nat → Nat → FetchOutcome` giving the outcome
  of the fetch for (0-based batch index, 0-based attempt index); the
  response does not depend on the request body, which the claims never
  need.
- `Date.now()` is modelled by a single `now : Nat` parameter; it only
  feeds the fallback upload-id string.
- A rejected promise is modelled by `Except.error msg` where `msg` is the
  message string the catch clauses would extract from the thrown value.
- The list of network calls actually issued (the trace) is returned next
  to the response, as a list of (batch index, attempt index) pairs.
-/

set_option maxHeartbeats 1000000
set_option maxRecDepth 2000

/-- The structured record attached to each file
(interface `EmployeeData` in the source). -/
structure EmployeeData where
  date : String
  employeeName : String
  employeePAN : String
  financialYear : String
  assessmentYear : String
  employeePath : String
  companyName : String
  document : String
  pdfread : String
deriving Repr, DecidableEq, Inhabited

/-- One element of the `files` argument of `uploadToApi`: the pair of a
file and its `EmployeeData`. The file itself only matters through the
outcome of `convertFileToBase64` on it, so the item carries that outcome:
`Except.ok s` when the read resolves with base64 text `s`, `Except.error m`
when the reader rejects with a value whose extracted message is `m`. -/
structure UploadItem where
  encResult : Except String String
  data : EmployeeData
deriving Repr

/-- The value resolved by `uploadToApi`
(interface `ApiUploadResponse` in the source); `uploadId := none` models
the field being absent from the returned object. -/
structure ApiUploadResponse where
  success : Bool
  message : String
  uploadId : Option String
deriving Repr, DecidableEq

/-- One entry of the `failedBatches` array in the source. -/
structure FailedBatch where
  batchIndex : Nat
  files : List String
  error : String
deriving Repr, DecidableEq

/-- Fuel-indexed translation of the `chunkArray` loop
(`for (let i = 0; i < arr.length; i += size) res.push(arr.slice(i, i + size))`):
each iteration emits `arr.slice(i, i + size)`, i.e. the first `size`
elements of what remains, and advances past them. The fuel bounds the
number of iterations; `chunkArray` supplies `arr.length`, which is enough
fuel whenever `size > 0` (the source always calls with size 10; with
size 0 the JS loop would not terminate, a case the source never reaches). -/
def chunkFuel (size : Nat) : Nat → List α → List (List α)
  | 0, _ => []
  | _ + 1, [] => []
  | fuel + 1, a :: rest => (a :: rest).take size :: chunkFuel size fuel ((a :: rest).drop size)

/-- The `chunkArray` helper of `uploadToApi`. -/
def chunkArray (size : Nat) (arr : List α) : List (List α) :=
  chunkFuel size arr.length arr

theorem chunkFuel_join (size : Nat) (hs : 0 < size) :
    ∀ (fuel : Nat) (l : List α), l.length ≤ fuel → (chunkFuel size fuel l).flatten = l := by
  intro fuel
  induction fuel with
  | zero =>
    intro l hl
    match l with
    | [] => rfl
  | succ n ih =>
    intro l hl
    match l with
    | [] => rfl
    | a :: rest =>
      simp only [chunkFuel, List.flatten_cons]
      rw [ih (((a :: rest).drop size))]
      · exact List.take_append_drop size (a :: rest)
      · simp only [List.length_drop, List.length_cons] at *
        omega

theorem chunkArray_join (size : Nat) (hs : 0 < size) (l : List α) :
    (chunkArray size l).flatten = l :=
  chunkFuel_join size hs l.length l (Nat.le_refl _)

theorem chunkFuel_length_eq (fuel : Nat) (l : List α) (hl : l.length ≤ fuel) :
    (chunkFuel 10 fuel l).length = (l.length + 9) / 10 := by
  induction fuel generalizing l with
  | zero =>
    match l with
    | [] => simp [chunkFuel]
  | succ n ih =>
    match l with
    | [] => simp [chunkFuel]
    | a :: rest =>
      simp only [chunkFuel, List.length_cons]
      rw [ih ((a :: rest).drop 10)]
      · simp only [List.length_drop, List.length_cons]
        omega
      · simp only [List.length_drop, List.length_cons] at *
        omega

theorem chunkArray_length (l : List α) :
    (chunkArray 10 l).length = (l.length + 9) / 10 :=
  chunkFuel_length_eq l.length l (Nat.le_refl _)

theorem chunkFuel_mem_bounds (fuel : Nat) (l : List α) (hl : l.length ≤ fuel)
    (b : List α) (hb : b ∈ chunkFuel 10 fuel l) : 1 ≤ b.length ∧ b.length ≤ 10 := by
  induction fuel generalizing l with
  | zero =>
    match l with
    | [] => simp [chunkFuel] at hb
  | succ n ih =>
    match l with
    | [] => simp [chunkFuel] at hb
    | a :: rest =>
      simp only [chunkFuel, List.mem_cons] at hb
      rcases hb with hb | hb
      · subst hb
        simp only [List.length_take, List.length_cons]
        omega
      · exact ih ((a :: rest).drop 10)
          (by simp only [List.length_drop, List.length_cons] at *; omega) hb

theorem chunkFuel_nonlast_len (fuel : Nat) (l : List α) (hl : l.length ≤ fuel)
    (i : Nat) (hi : i + 1 < (chunkFuel 10 fuel l).length) :
    ((chunkFuel 10 fuel l).getD i []).length = 10 := by
  induction fuel generalizing l i with
  | zero =>
    match l with
    | [] => simp [chunkFuel] at hi
  | succ n ih =>
    match l with
    | [] => simp [chunkFuel] at hi
    | a :: rest =>
      simp only [chunkFuel, List.length_cons] at hi ⊢
      match i with
      | 0 =>
        simp only [List.getD_cons_zero, List.length_take, List.length_cons]
        have hne : chunkFuel 10 n ((a :: rest).drop 10) ≠ [] := by
          intro hcontra
          rw [hcontra] at hi
          simp at hi
        have hdrop : (a :: rest).drop 10 ≠ [] := by
          intro hcontra
          rw [hcontra] at hne
          match n with
          | 0 => exact hne rfl
          | _ + 1 => exact hne rfl
        have hlen : 10 < rest.length + 1 := by
          by_contra hle
          refine hdrop (List.drop_eq_nil_of_le ?_)
          simp only [List.length_cons]
          omega
        omega
      | j + 1 =>
        simp only [List.getD_cons_succ]
        exact ih ((a :: rest).drop 10)
          (by simp only [List.length_drop, List.length_cons] at *; omega) j (by omega)

/-- C2: chunking with batch size 10 produces exactly ceil(N/10) batches;
concatenating the batches in order reproduces the input exactly (hence the
batches are contiguous, non-overlapping, exhaustive slices); every batch
has between 1 and 10 items; and every batch other than the last has
exactly 10 items. -/
theorem chunkArray_spec (l : List α) :
    (chunkArray 10 l).length = (l.length + 9) / 10 ∧
    (chunkArray 10 l).flatten = l ∧
    (∀ b ∈ chunkArray 10 l, 1 ≤ b.length ∧ b.length ≤ 10) ∧
    (∀ i : Nat, i + 1 < (chunkArray 10 l).length →
      ((chunkArray 10 l).getD i []).length = 10) := by
  refine ⟨chunkArray_length l, chunkArray_join 10 (by omega) l, ?_, ?_⟩
  · intro b hb
    exact chunkFuel_mem_bounds l.length l (Nat.le_refl _) b hb
  · intro i hi
    exact chunkFuel_nonlast_len l.length l (Nat.le_refl _) i hi

/-- Witness for C2 at a concrete input of length 11: two batches, the first
of length 10, joining back to the input. -/
theorem chunkArray_spec_witness :
    (chunkArray 10 (List.range 11)).length = 2 ∧
    (chunkArray 10 (List.range 11)).flatten = List.range 11 ∧
    ((chunkArray 10 (List.range 11)).getD 0 []).length = 10 := by
  have h := chunkArray_spec (List.range 11)
  refine ⟨?_, h.2.1, ?_⟩
  · rw [h.1]; decide
  · exact h.2.2.2 0 (by rw [h.1]; decide)

/-- The base64 alphabet used by the browser when `FileReader.readAsDataURL`
produces a data URL (RFC 4648 standard alphabet). -/
def b64Alphabet : List Char :=
  "ABCDEFGHIJKLMNOPQRSTUVWXYZabcdefghijklmnopqrstuvwxyz0123456789+/".toList

/-- Character for a 6-bit group (0..63). -/
def sextetToChar (n : Nat) : Char := b64Alphabet.getD n 'A'

/-- Index of a character in the base64 alphabet, the inverse lookup a
decoder performs. -/
def charToSextet (c : Char) : Nat := b64Alphabet.indexOf c

/-- Modelled from the spec: the base64 text the browser produces inside a
data URL for a byte sequence (standard base64 of RFC 4648, with `=`
padding), as used by `FileReader.readAsDataURL`; the repository itself
only consumes this platform output. Bytes are Nat values below 256. -/
def b64Encode : List Nat → List Char
  | [] => []
  | [b1] =>
    [sextetToChar (b1 / 4), sextetToChar (b1 % 4 * 16), '=', '=']
  | [b1, b2] =>
    [sextetToChar (b1 / 4), sextetToChar (b1 % 4 * 16 + b2 / 16),
     sextetToChar (b2 % 16 * 4), '=']
  | b1 :: b2 :: b3 :: rest =>
    sextetToChar (b1 / 4) :: sextetToChar (b1 % 4 * 16 + b2 / 16) ::
    sextetToChar (b2 % 16 * 4 + b3 / 64) :: sextetToChar (b3 % 64) :: b64Encode rest

/-- Modelled from the spec: standard base64 decoding (the inverse the
spec's round-trip property appeals to); processes quadruples of
characters, honouring `=` padding. -/
def b64Decode : List Char → List Nat
  | c1 :: c2 :: c3 :: c4 :: rest =>
    if c3 = '=' then
      [charToSextet c1 * 4 + charToSextet c2 / 16]
    else if c4 = '=' then
      [charToSextet c1 * 4 + charToSextet c2 / 16,
       charToSextet c2 % 16 * 16 + charToSextet c3 / 4]
    else
      (charToSextet c1 * 4 + charToSextet c2 / 16) ::
      (charToSextet c2 % 16 * 16 + charToSextet c3 / 4) ::
      (charToSextet c3 % 4 * 64 + charToSextet c4) :: b64Decode rest
  | _ => []

theorem charToSextet_sextetToChar (n : Nat) (h : n < 64) :
    charToSextet (sextetToChar n) = n := by
  have hall : ∀ m : Fin 64, charToSextet (sextetToChar m.val) = m.val := by decide
  exact hall ⟨n, h⟩

theorem sextetToChar_ne_eq (n : Nat) (h : n < 64) : sextetToChar n ≠ '=' := by
  have hall : ∀ m : Fin 64, sextetToChar m.val ≠ '=' := by decide
  exact hall ⟨n, h⟩

theorem sextetToChar_ne_comma (n : Nat) (h : n < 64) : sextetToChar n ≠ ',' := by
  have hall : ∀ m : Fin 64, sextetToChar m.val ≠ ',' := by decide
  exact hall ⟨n, h⟩

/-- Base64 round trip on byte sequences. -/
theorem b64_roundtrip (l : List Nat) (h : ∀ b ∈ l, b < 256) :
    b64Decode (b64Encode l) = l := by
  induction l using b64Encode.induct with
  | case1 => simp [b64Encode, b64Decode]
  | case2 b1 =>
    have hb1 : b1 < 256 := h b1 (by simp)
    simp only [b64Encode, b64Decode, ite_true, if_true]
    rw [charToSextet_sextetToChar (b1 / 4) (by omega),
        charToSextet_sextetToChar (b1 % 4 * 16) (by omega)]
    simp only [List.cons.injEq, and_true]
    omega
  | case3 b1 b2 =>
    have hb1 : b1 < 256 := h b1 (by simp)
    have hb2 : b2 < 256 := h b2 (by simp)
    simp only [b64Encode, b64Decode, ite_true, if_true]
    rw [if_neg (sextetToChar_ne_eq (b2 % 16 * 4) (by omega))]
    rw [charToSextet_sextetToChar (b1 / 4) (by omega),
        charToSextet_sextetToChar (b1 % 4 * 16 + b2 / 16) (by omega),
        charToSextet_sextetToChar (b2 % 16 * 4) (by omega)]
    simp only [List.cons.injEq, and_true]
    refine ⟨by omega, by omega⟩
  | case4 b1 b2 b3 rest ih =>
    have hb1 : b1 < 256 := h b1 (by simp)
    have hb2 : b2 < 256 := h b2 (by simp)
    have hb3 : b3 < 256 := h b3 (by simp)
    simp only [b64Encode, b64Decode, ite_true, if_true]
    rw [if_neg (sextetToChar_ne_eq (b2 % 16 * 4 + b3 / 64) (by omega)),
        if_neg (sextetToChar_ne_eq (b3 % 64) (by omega))]
    rw [charToSextet_sextetToChar (b1 / 4) (by omega),
        charToSextet_sextetToChar (b1 % 4 * 16 + b2 / 16) (by omega),
        charToSextet_sextetToChar (b2 % 16 * 4 + b3 / 64) (by omega),
        charToSextet_sextetToChar (b3 % 64) (by omega)]
    rw [ih (fun b hb => h b (by simp [hb]))]
    simp only [List.cons.injEq, and_true]
    refine ⟨by omega, by omega, by omega⟩

/-- Translation of the JS `String.prototype.split(sep)` scan: walk the
characters, cutting a new piece at every separator; `acc` holds the
(reversed) characters of the piece being built. -/
def splitAux (sep : Char) : List Char → List Char → List (List Char)
  | [], acc => [acc.reverse]
  | c :: rest, acc =>
    if c = sep then acc.reverse :: splitAux sep rest []
    else splitAux sep rest (c :: acc)

/-- JS `s.split(sep)` on character lists. -/
def jsSplit (sep : Char) (s : List Char) : List (List Char) := splitAux sep s []

/-- The prefix-stripping step of `convertFileToBase64`
(`base64.split(',')[1]`): the second piece of the comma split, i.e. the
text after the first comma (up to the next one). An out-of-range index
gives `[]` (JS would give `undefined`; the claims only evaluate it in
range). -/
def stripDataUrl (s : List Char) : List Char := (jsSplit ',' s).getD 1 []

/-- Modelled from the spec: the data URL produced by
`FileReader.readAsDataURL` for a PDF file — a media-type head, then a
comma, then the base64 text of the file's bytes. The repository only
consumes this platform output. -/
def readAsDataURL (head : List Char) (bytes : List Nat) : List Char :=
  head ++ ',' :: b64Encode bytes

theorem splitAux_no_sep (sep : Char) (l acc : List Char) (h : sep ∉ l) :
    splitAux sep l acc = [acc.reverse ++ l] := by
  induction l generalizing acc with
  | nil => simp [splitAux]
  | cons c rest ih =>
    simp only [List.mem_cons, not_or] at h
    simp only [splitAux]
    rw [if_neg (fun hc => h.1 hc.symm)]
    rw [ih (c :: acc) h.2]
    simp

theorem jsSplit_around_comma (head body : List Char)
    (hh : ',' ∉ head) (hb : ',' ∉ body) :
    jsSplit ',' (head ++ ',' :: body) = [head, body] := by
  unfold jsSplit
  have haux : ∀ acc : List Char, splitAux ',' (head ++ ',' :: body) acc =
      (acc.reverse ++ head) :: splitAux ',' body [] := by
    induction head with
    | nil =>
      intro acc
      simp [splitAux]
    | cons c rest ih =>
      intro acc
      simp only [List.mem_cons, not_or] at hh
      simp only [List.cons_append, splitAux, List.append_eq]
      rw [if_neg (fun hc => hh.1 hc.symm)]
      rw [ih hh.2 (c :: acc)]
      simp
  rw [haux []]
  rw [splitAux_no_sep ',' body [] hb]
  simp

theorem b64Encode_no_comma (l : List Nat) (h : ∀ b ∈ l, b < 256) :
    ',' ∉ b64Encode l := by
  induction l using b64Encode.induct with
  | case1 => simp [b64Encode]
  | case2 b1 =>
    have hb1 : b1 < 256 := h b1 (by simp)
    simp only [b64Encode, List.mem_cons, List.not_mem_nil, or_false]
    push_neg
    refine ⟨?_, ?_, by decide, by decide⟩
    · exact fun hc => sextetToChar_ne_comma (b1 / 4) (by omega) hc.symm
    · exact fun hc => sextetToChar_ne_comma (b1 % 4 * 16) (by omega) hc.symm
  | case3 b1 b2 =>
    have hb1 : b1 < 256 := h b1 (by simp)
    have hb2 : b2 < 256 := h b2 (by simp)
    simp only [b64Encode, List.mem_cons, List.not_mem_nil, or_false]
    push_neg
    refine ⟨?_, ?_, ?_, by decide⟩
    · exact fun hc => sextetToChar_ne_comma (b1 / 4) (by omega) hc.symm
    · exact fun hc => sextetToChar_ne_comma (b1 % 4 * 16 + b2 / 16) (by omega) hc.symm
    · exact fun hc => sextetToChar_ne_comma (b2 % 16 * 4) (by omega) hc.symm
  | case4 b1 b2 b3 rest ih =>
    have hb1 : b1 < 256 := h b1 (by simp)
    have hb2 : b2 < 256 := h b2 (by simp)
    have hb3 : b3 < 256 := h b3 (by simp)
    simp only [b64Encode, List.mem_cons, not_or]
    refine ⟨?_, ?_, ?_, ?_, ?_⟩
    · exact fun hc => sextetToChar_ne_comma (b1 / 4) (by omega) hc.symm
    · exact fun hc => sextetToChar_ne_comma (b1 % 4 * 16 + b2 / 16) (by omega) hc.symm
    · exact fun hc => sextetToChar_ne_comma (b2 % 16 * 4 + b3 / 64) (by omega) hc.symm
    · exact fun hc => sextetToChar_ne_comma (b3 % 64) (by omega) hc.symm
    · exact ih (fun b hb => h b (by simp [hb]))

/-- C8: for every byte sequence, producing the data URL, stripping
everything up to and including the first comma the way
`convertFileToBase64` does (`split(',')[1]`), and base64-decoding the
result reproduces the original bytes exactly, for any comma-free data-URL
head (the browser's head `data:application/pdf;base64` contains no
comma). -/
theorem dataUrl_roundtrip (head : List Char) (bytes : List Nat)
    (hh : ',' ∉ head) (hb : ∀ b ∈ bytes, b < 256) :
    b64Decode (stripDataUrl (readAsDataURL head bytes)) = bytes := by
  unfold stripDataUrl readAsDataURL
  rw [jsSplit_around_comma head (b64Encode bytes) hh (b64Encode_no_comma bytes hb)]
  simp only [List.getD]
  exact b64_roundtrip bytes hb

/-- Witness for C8: the concrete PDF data-URL head and the bytes
`[0, 1, 250]` round-trip exactly. -/
theorem dataUrl_roundtrip_witness :
    b64Decode (stripDataUrl (readAsDataURL ("data:application/pdf;base64".toList) [0, 1, 250])) =
      [0, 1, 250] :=
  dataUrl_roundtrip ("data:application/pdf;base64".toList) [0, 1, 250]
    (by decide) (by decide)

/-- Outcome of one `fetch` call in `uploadToApi` (0-based attempt of a
0-based batch), as the surrounding code observes it:
`ok uid` models a response with `response.ok` true whose JSON body parsed
and carried the given `uploadId` field (`none` = field absent);
`httpErr st` models `response.ok` false with `statusText` `st`;
`exn m` models `fetch` (or `response.json()`) throwing a value whose
extracted message is `m`. -/
inductive FetchOutcome where
  | ok (uploadId : Option String)
  | httpErr (statusText : String)
  | exn (msg : String)
deriving Repr, DecidableEq

/-- Whether the outcome enters the success path of the loop body. -/
def FetchOutcome.succeeds : FetchOutcome → Bool
  | .ok _ => true
  | _ => false

/-- The `uploadId` field the success path would read (`none` when the
outcome is not a success). -/
def FetchOutcome.uid : FetchOutcome → Option String
  | .ok u => u
  | _ => none

/-- The error message a failing attempt stores in `lastError`
(`statusText` for a non-ok response, the extracted message for a throw;
unused for a success). -/
def FetchOutcome.errMsg : FetchOutcome → String
  | .ok _ => ""
  | .httpErr st => st
  | .exn m => m

/-- The value pushed onto `allUploadIds` on success:
`result.uploadId || api-<Date.now()>` — JS `||` takes the fallback when
the field is absent or the empty string. -/
def pushedId (uid : Option String) (now : Nat) : String :=
  match uid with
  | some s => if s = "" then "api-" ++ toString now else s
  | none => "api-" ++ toString now

/-- Translation of the per-batch retry loop
(`while (attempt < 3 && !success) { try { fetch ... } catch ... }`),
counting down the remaining attempt budget (`remaining = 3 - attempt`).
`net a` is the outcome of the attempt with 0-based index `a`. Returns the
list of attempt indices actually issued, `some id` (the value pushed onto
`allUploadIds`) if some attempt succeeded, and the final `lastError`. -/
def runBatchLoop (net : Nat → FetchOutcome) (now : Nat) :
    Nat → Nat → String → List Nat × Option String × String
  | 0, _, lastError => ([], none, lastError)
  | remaining + 1, attempt, lastError =>
    match net attempt with
    | .ok uid => ([attempt], some (pushedId uid now), lastError)
    | .httpErr st =>
      let r := runBatchLoop net now remaining (attempt + 1) st
      (attempt :: r.1, r.2)
    | .exn m =>
      let r := runBatchLoop net now remaining (attempt + 1) m
      (attempt :: r.1, r.2)

/-- The submission record built for one item:
`{ ...data, document: base64Document }`. -/
def toPayload (d : EmployeeData) (doc : String) : EmployeeData :=
  { d with document := doc }

/-- Translation of the per-batch
`Promise.all(batch.map(async ({file, data}) => ...))`: every item's
encoding must resolve; the first rejection (in list order) rejects the
whole batch with its message. -/
def encodeBatch (batch : List UploadItem) : Except String (List EmployeeData) :=
  batch.mapM (fun it => Except.map (toPayload it.data) it.encResult)

/-- Whether an item's encoding resolves. -/
def encOk : Except String String → Bool
  | .ok _ => true
  | .error _ => false

/-- Whether every item of a list encodes successfully. -/
def allEncOk (items : List UploadItem) : Bool :=
  items.all (fun it => encOk it.encResult)

/-- The mutable aggregation state of the batch loop of `uploadToApi`
(`allUploadIds`, `allSuccess`, `allMessages`, `failedBatches`), extended
with the trace of network calls issued so far, each recorded as
(0-based batch index, 0-based attempt index). -/
structure UploadState where
  allUploadIds : List String
  allSuccess : Bool
  allMessages : List String
  failedBatches : List FailedBatch
  trace : List (Nat × Nat)
deriving Repr, DecidableEq

/-- The state at entry of the batch loop. -/
def initState : UploadState := ⟨[], true, [], [], []⟩

/-- Result of running the batch loop to its end: either the loop finishes
normally with the final state, or an exception escapes it (an encoding
rejection) carrying the extracted message and the state at that moment
(whose trace records the network calls already issued). -/
inductive LoopResult where
  | done (st : UploadState)
  | thrown (msg : String) (st : UploadState)
deriving Repr, DecidableEq

/-- Translation of the batch loop of `uploadToApi`
(`for (let i = 0; i < fileBatches.length; i++) { ... }`): encode the
current batch (a rejection escapes the loop), run the retry loop, then
either record the success (push the upload id and the success message) or
record the permanent failure (clear `allSuccess`, push the failure
message, append the `failedBatches` entry), and continue with the next
batch. -/
def processBatches (net : Nat → Nat → FetchOutcome) (now : Nat) :
    List (List UploadItem) → Nat → UploadState → LoopResult
  | [], _, st => LoopResult.done st
  | batch :: rest, i, st =>
    match encodeBatch batch with
    | .error m => LoopResult.thrown m st
    | .ok _payload =>
      let r := runBatchLoop (net i) now 3 0 ""
      let st1 : UploadState := { st with trace := st.trace ++ r.1.map (fun a => (i, a)) }
      match r.2.1 with
      | some uid =>
        processBatches net now rest (i + 1)
          { st1 with
            allUploadIds := st1.allUploadIds ++ [uid],
            allMessages := st1.allMessages ++
              ["Batch " ++ toString (i + 1) ++ " uploaded successfully"] }
      | none =>
        processBatches net now rest (i + 1)
          { st1 with
            allSuccess := false,
            allMessages := st1.allMessages ++
              ["Batch " ++ toString (i + 1) ++ " failed after 3 attempts: " ++ r.2.2],
            failedBatches := st1.failedBatches ++
              [⟨i + 1, batch.map (fun it => it.data.employeeName), r.2.2⟩] }

/-- JSON string escaping for the characters the serialized failed-batches
entries can contain (quote and backslash; other JSON control-character
escapes are irrelevant to the claims and omitted). -/
def jsonEscapeChar (c : Char) : List Char :=
  if c = '"' then ['\\', '"'] else if c = '\\' then ['\\', '\\'] else [c]

/-- A JSON string literal, as `JSON.stringify` renders one. -/
def jsonString (s : String) : String :=
  "\"" ++ String.mk ((s.toList.map jsonEscapeChar).flatten) ++ "\""

/-- One element of `JSON.stringify(failedBatches)`. -/
def stringifyFailedBatch (fb : FailedBatch) : String :=
  "\x7b\"batchIndex\":" ++ toString fb.batchIndex ++
  ",\"files\":[" ++ String.intercalate "," (fb.files.map jsonString) ++
  "],\"error\":" ++ jsonString fb.error ++ "\x7d"

/-- The serialized failed-batches array (`JSON.stringify(failedBatches)`). -/
def stringifyFailedBatches (l : List FailedBatch) : String :=
  "[" ++ String.intercalate "," (l.map stringifyFailedBatch) ++ "]"

/-- Translation of `uploadToApi`: chunk the input into batches of 10, run
the batch loop from the initial state, and aggregate; if an exception
escaped the loop, the outer catch returns a response without `uploadId`
whose message is the extracted exception message. The second component is
the trace of network calls issued. -/
def uploadToApi (net : Nat → Nat → FetchOutcome) (now : Nat)
    (files : List UploadItem) : ApiUploadResponse × List (Nat × Nat) :=
  match processBatches net now (chunkArray 10 files) 0 initState with
  | .done st =>
    ({ success := st.allSuccess,
       message := String.intercalate "; " st.allMessages ++
         (if st.failedBatches.length > 0 then
           "; Failed batches: " ++ stringifyFailedBatches st.failedBatches
          else ""),
       uploadId := some (String.intercalate "," st.allUploadIds) }, st.trace)
  | .thrown m st => ({ success := false, message := m, uploadId := none }, st.trace)

/-- The attempt indices issued for the batch with 0-based index `i`. -/
def batchCalls (net : Nat → Nat → FetchOutcome) (now i : Nat) : List Nat :=
  (runBatchLoop (net i) now 3 0 "").1

/-- The per-batch outcome: `some id` when the batch succeeded (with the
upload id it pushed), `none` when it permanently failed. -/
def batchSucc (net : Nat → Nat → FetchOutcome) (now i : Nat) : Option String :=
  (runBatchLoop (net i) now 3 0 "").2.1

/-- The last error message of the batch with 0-based index `i`. -/
def batchErr (net : Nat → Nat → FetchOutcome) (now i : Nat) : String :=
  (runBatchLoop (net i) now 3 0 "").2.2

/-- The upload ids collected by the batches `i, i+1, ...` paired with the
given batch list, in order. -/
def idsOf (net : Nat → Nat → FetchOutcome) (now : Nat) :
    List (List UploadItem) → Nat → List String
  | [], _ => []
  | _ :: rest, i =>
    (match batchSucc net now i with
     | some uid => [uid]
     | none => []) ++ idsOf net now rest (i + 1)

/-- The status lines pushed onto `allMessages`, one per batch, in order. -/
def msgsOf (net : Nat → Nat → FetchOutcome) (now : Nat) :
    List (List UploadItem) → Nat → List String
  | [], _ => []
  | _ :: rest, i =>
    (match batchSucc net now i with
     | some _ => "Batch " ++ toString (i + 1) ++ " uploaded successfully"
     | none => "Batch " ++ toString (i + 1) ++ " failed after 3 attempts: " ++
         batchErr net now i) :: msgsOf net now rest (i + 1)

/-- The failed-batches entries, one per permanently failed batch, in
order: 1-based index, the display names of the batch's items, the last
error. -/
def failsOf (net : Nat → Nat → FetchOutcome) (now : Nat) :
    List (List UploadItem) → Nat → List FailedBatch
  | [], _ => []
  | batch :: rest, i =>
    (match batchSucc net now i with
     | some _ => []
     | none => [⟨i + 1, batch.map (fun it => it.data.employeeName), batchErr net now i⟩]) ++
    failsOf net now rest (i + 1)

/-- The logical AND of the per-batch outcomes. -/
def succAllOf (net : Nat → Nat → FetchOutcome) (now : Nat) :
    List (List UploadItem) → Nat → Bool
  | [], _ => true
  | _ :: rest, i => (batchSucc net now i).isSome && succAllOf net now rest (i + 1)

/-- The network trace: for each batch in order, its attempts tagged with
its batch index. -/
def traceOf (net : Nat → Nat → FetchOutcome) (now : Nat) :
    List (List UploadItem) → Nat → List (Nat × Nat)
  | [], _ => []
  | _ :: rest, i =>
    (batchCalls net now i).map (fun a => (i, a)) ++ traceOf net now rest (i + 1)

theorem encodeBatch_isOk (batch : List UploadItem) (h : allEncOk batch = true) :
    ∃ p, encodeBatch batch = Except.ok p := by
  induction batch with
  | nil => exact ⟨[], rfl⟩
  | cons it rest ih =>
    simp only [allEncOk, List.all_cons, Bool.and_eq_true] at h
    obtain ⟨p, hp⟩ := ih h.2
    match hit : it.encResult with
    | .ok s =>
      refine ⟨toPayload it.data s :: p, ?_⟩
      simp only [encodeBatch] at hp ⊢
      simp only [List.mapM_cons, hit, Except.map] at hp ⊢
      rw [hp]
      rfl
    | .error m =>
      rw [hit] at h
      simp [encOk] at h

/-- The batch loop, from any start state and batch index, when every item
of every batch encodes successfully: it finishes normally, and the final
state is the start state extended by the per-batch aggregates. -/
theorem processBatches_done (net : Nat → Nat → FetchOutcome) (now : Nat)
    (batches : List (List UploadItem)) :
    ∀ (i : Nat) (st : UploadState), (∀ b ∈ batches, allEncOk b = true) →
    processBatches net now batches i st = LoopResult.done
      ⟨st.allUploadIds ++ idsOf net now batches i,
       st.allSuccess && succAllOf net now batches i,
       st.allMessages ++ msgsOf net now batches i,
       st.failedBatches ++ failsOf net now batches i,
       st.trace ++ traceOf net now batches i⟩ := by
  induction batches with
  | nil =>
    intro i st _
    simp [processBatches, idsOf, succAllOf, msgsOf, failsOf, traceOf]
  | cons batch rest ih =>
    intro i st hall
    obtain ⟨p, hp⟩ := encodeBatch_isOk batch (hall batch (by simp))
    simp only [processBatches, hp]
    match hs : batchSucc net now i with
    | some uid =>
      simp only [batchSucc] at hs
      simp only [hs]
      rw [ih (i + 1) _ (fun b hb => hall b (by simp [hb]))]
      simp only [idsOf, succAllOf, msgsOf, failsOf, traceOf, batchSucc, batchCalls, hs]
      simp [List.append_assoc]
    | none =>
      simp only [batchSucc] at hs
      simp only [hs]
      rw [ih (i + 1) _ (fun b hb => hall b (by simp [hb]))]
      simp only [idsOf, succAllOf, msgsOf, failsOf, traceOf, batchSucc, batchErr, batchCalls, hs]
      simp [List.append_assoc]

/-- A concrete `EmployeeData` record used by the concrete scenarios. -/
def mkData (name : String) : EmployeeData :=
  ⟨"d", name, "pan", "fy", "ay", "p", "co", "", "pdf"⟩

/-- A concrete item whose encoding resolves to the text `doc`. -/
def mkItem (name : String) : UploadItem := ⟨Except.ok "doc", mkData name⟩

/-- C6: for the empty input list, `uploadToApi` makes zero network calls
(empty trace) and returns success with empty message and empty uploadId. -/
theorem uploadEmpty_spec (net : Nat → Nat → FetchOutcome) (now : Nat) :
    uploadToApi net now [] =
      ({ success := true, message := "", uploadId := some "" }, []) := rfl

/-- C3: the retry loop of `uploadToApi` issues at most 3 requests per
batch, all with attempt index below 3; it stops at the first success
(success on attempt 1 gives exactly 1 request, on attempt 2 exactly 2);
when attempts 1 and 2 fail and attempt 3 succeeds, the batch is reported
successful with exactly the 3 requests 0,1,2; and when every attempt
fails, the batch is unsuccessful and the recorded error is the message of
the last attempt. -/
theorem uploadRetry_spec (net : Nat → FetchOutcome) (now : Nat) :
    (runBatchLoop net now 3 0 "").1.length ≤ 3 ∧
    (∀ a ∈ (runBatchLoop net now 3 0 "").1, a < 3) ∧
    ((net 0).succeeds = true →
      (runBatchLoop net now 3 0 "").1 = [0] ∧
      (runBatchLoop net now 3 0 "").2.1.isSome = true) ∧
    ((net 0).succeeds = false → (net 1).succeeds = true →
      (runBatchLoop net now 3 0 "").1 = [0, 1] ∧
      (runBatchLoop net now 3 0 "").2.1.isSome = true) ∧
    ((net 0).succeeds = false → (net 1).succeeds = false → (net 2).succeeds = true →
      (runBatchLoop net now 3 0 "").1 = [0, 1, 2] ∧
      (runBatchLoop net now 3 0 "").2.1.isSome = true) ∧
    ((net 0).succeeds = false → (net 1).succeeds = false → (net 2).succeeds = false →
      (runBatchLoop net now 3 0 "").2.1 = none ∧
      (runBatchLoop net now 3 0 "").2.2 = (net 2).errMsg) := by
  rcases h0 : net 0 with u0 | s0 | m0 <;>
    rcases h1 : net 1 with u1 | s1 | m1 <;>
      rcases h2 : net 2 with u2 | s2 | m2 <;>
        simp [runBatchLoop, FetchOutcome.succeeds, FetchOutcome.errMsg, h0, h1, h2]

/-- Network used by the witness of C3: fails twice, succeeds on the third
attempt. -/
def netRetryW : Nat → FetchOutcome :=
  fun a => if a = 2 then FetchOutcome.ok none else FetchOutcome.httpErr "e"

/-- Witness for C3: on a batch failing attempts 1 and 2 and succeeding on
attempt 3, exactly the three requests 0,1,2 are issued and the batch
succeeds. -/
theorem uploadRetry_spec_witness :
    (runBatchLoop netRetryW 5 3 0 "").1 = [0, 1, 2] ∧
    (runBatchLoop netRetryW 5 3 0 "").2.1.isSome = true :=
  (uploadRetry_spec netRetryW 5).2.2.2.2.1 rfl rfl rfl

theorem api_ne_empty (t : String) : "api-" ++ t ≠ "" := by
  intro h
  have hd := congrArg String.length h
  rw [String.length_append] at hd
  have h4 : "api-".length = 4 := rfl
  have h0 : "".length = 0 := rfl
  omega

/-- C9: whenever the retry loop reports a successful batch, the pushed
identifier is the JSON body's `uploadId` passed through the JS `||`
fallback: it comes from some successful attempt, it is never the empty
string, and when the server body carried no identifier it is the
timestamp-based fallback string. -/
theorem uploadIdNonempty_spec (net : Nat → FetchOutcome) (now : Nat) :
    ∀ (remaining attempt : Nat) (lastError uid : String),
    (runBatchLoop net now remaining attempt lastError).2.1 = some uid →
    uid ≠ "" ∧
    ∃ k, attempt ≤ k ∧ (net k).succeeds = true ∧ uid = pushedId (net k).uid now ∧
      ((net k).uid = none → uid = "api-" ++ toString now) := by
  intro remaining
  induction remaining with
  | zero =>
    intro attempt lastError uid h
    simp [runBatchLoop] at h
  | succ n ih =>
    intro attempt lastError uid h
    rcases ha : net attempt with u | s | m
    · simp only [runBatchLoop, ha] at h
      obtain rfl : pushedId u now = uid := by
        simpa using h
      refine ⟨?_, attempt, Nat.le_refl _, by simp [ha, FetchOutcome.succeeds],
        by simp [ha, FetchOutcome.uid], ?_⟩
      · match u with
        | none => exact api_ne_empty (toString now)
        | some s =>
          simp only [pushedId]
          split
          · exact api_ne_empty (toString now)
          · assumption
      · intro hu
        simp [ha, FetchOutcome.uid] at hu
        simp [pushedId, hu]
    · simp only [runBatchLoop, ha] at h
      obtain ⟨hne, k, hk, hsucc, huid, hfb⟩ := ih (attempt + 1) s uid h
      exact ⟨hne, k, by omega, hsucc, huid, hfb⟩
    · simp only [runBatchLoop, ha] at h
      obtain ⟨hne, k, hk, hsucc, huid, hfb⟩ := ih (attempt + 1) m uid h
      exact ⟨hne, k, by omega, hsucc, huid, hfb⟩

/-- Network used by the witness of C9: succeeds immediately with a JSON
body that has no `uploadId` field. -/
def netIdW : Nat → FetchOutcome := fun _ => FetchOutcome.ok none

/-- Witness for C9: when the server body carries no identifier, the batch
still contributes the non-empty fallback identifier. -/
theorem uploadIdNonempty_spec_witness :
    "api-7" ≠ "" ∧
    ∃ k, 0 ≤ k ∧ (netIdW k).succeeds = true ∧ "api-7" = pushedId (netIdW k).uid 7 ∧
      ((netIdW k).uid = none → "api-7" = "api-" ++ toString 7) :=
  uploadIdNonempty_spec netIdW 7 3 0 "" "api-7" rfl

/-- C5: when every item encodes successfully, the returned report is
exactly the aggregation of the per-batch outcomes: `success` is the
logical AND of the outcomes, `message` is the per-batch status lines
joined by the separator with the serialized failed-batches list appended
when that list is non-empty, and `uploadId` is the collected identifiers
joined by a comma. -/
theorem uploadAggregate_spec (net : Nat → Nat → FetchOutcome) (now : Nat)
    (files : List UploadItem) (h : ∀ b ∈ chunkArray 10 files, allEncOk b = true) :
    (uploadToApi net now files).1 =
      { success := succAllOf net now (chunkArray 10 files) 0,
        message := String.intercalate "; " (msgsOf net now (chunkArray 10 files) 0) ++
          (if (failsOf net now (chunkArray 10 files) 0).length > 0 then
            "; Failed batches: " ++
              stringifyFailedBatches (failsOf net now (chunkArray 10 files) 0)
           else ""),
        uploadId := some (String.intercalate ","
          (idsOf net now (chunkArray 10 files) 0)) } := by
  unfold uploadToApi
  rw [processBatches_done net now (chunkArray 10 files) 0 initState h]
  simp [initState]

/-- Network used by the witness of C5: batch 1 succeeds with id `zz`,
batch 2 permanently fails with statusText `bad`. -/
def netAggW : Nat → Nat → FetchOutcome :=
  fun b _ => if b = 0 then FetchOutcome.ok (some "zz") else FetchOutcome.httpErr "bad"

/-- Input of the witness of C5: 11 items, hence two batches. -/
def itemsAggW : List UploadItem := (List.range 11).map (fun i => mkItem ("e" ++ toString i))

/-- Witness for C5 at a concrete two-batch run with one permanent
failure. -/
theorem uploadAggregate_spec_witness :
    (uploadToApi netAggW 3 itemsAggW).1 =
      { success := succAllOf netAggW 3 (chunkArray 10 itemsAggW) 0,
        message := String.intercalate "; " (msgsOf netAggW 3 (chunkArray 10 itemsAggW) 0) ++
          (if (failsOf netAggW 3 (chunkArray 10 itemsAggW) 0).length > 0 then
            "; Failed batches: " ++
              stringifyFailedBatches (failsOf netAggW 3 (chunkArray 10 itemsAggW) 0)
           else ""),
        uploadId := some (String.intercalate ","
          (idsOf netAggW 3 (chunkArray 10 itemsAggW) 0)) } ∧
    succAllOf netAggW 3 (chunkArray 10 itemsAggW) 0 = false ∧
    idsOf netAggW 3 (chunkArray 10 itemsAggW) 0 = ["zz"] ∧
    (failsOf netAggW 3 (chunkArray 10 itemsAggW) 0).length = 1 :=
  ⟨uploadAggregate_spec netAggW 3 itemsAggW (by decide), by decide, by decide, by decide⟩

theorem traceOf_range (net : Nat → Nat → FetchOutcome) (now : Nat) :
    ∀ (batches : List (List UploadItem)) (i : Nat),
    traceOf net now batches i =
      ((List.range batches.length).map
        (fun k => (batchCalls net now (i + k)).map (fun a => (i + k, a)))).flatten := by
  intro batches
  induction batches with
  | nil => intro i; simp [traceOf]
  | cons b rest ih =>
    intro i
    simp only [traceOf, List.length_cons, List.range_succ_eq_map, List.map_cons,
      List.map_map, List.flatten_cons, Nat.add_zero]
    rw [ih (i + 1)]
    congr 1
    congr 1
    apply List.map_congr_left
    intro k _
    have hik : i + Nat.succ k = (i + 1) + k := by omega
    simp [Function.comp, hik]

/-- C7: when every item encodes successfully, the trace of network calls
of `uploadToApi` is exactly the concatenation, over the batch indices in
increasing order, of that batch's attempts tagged with its index — so all
requests of one batch are contiguous, batch groups appear in increasing
order, and no request of a later batch precedes the end of an earlier
batch's group. -/
theorem uploadSequential_spec (net : Nat → Nat → FetchOutcome) (now : Nat)
    (files : List UploadItem) (h : ∀ b ∈ chunkArray 10 files, allEncOk b = true) :
    (uploadToApi net now files).2 =
      ((List.range (chunkArray 10 files).length).map
        (fun i => (batchCalls net now i).map (fun a => (i, a)))).flatten := by
  unfold uploadToApi
  rw [processBatches_done net now (chunkArray 10 files) 0 initState h]
  simp only [initState, List.nil_append]
  rw [traceOf_range net now (chunkArray 10 files) 0]
  simp

/-- Network used by the witness of C7: batch 1 needs two attempts, batch 2
succeeds at once. -/
def netSeqW : Nat → Nat → FetchOutcome :=
  fun b a => if b = 0 ∧ a = 0 then FetchOutcome.httpErr "h" else FetchOutcome.ok none

/-- Input of the witness of C7: 11 items, hence two batches. -/
def itemsSeqW : List UploadItem := (List.range 11).map (fun i => mkItem ("s" ++ toString i))

/-- Witness for C7: the concrete trace is batch 0's attempts 0,1 followed
by batch 1's attempt 0, in order. -/
theorem uploadSequential_spec_witness :
    (uploadToApi netSeqW 0 itemsSeqW).2 =
      ((List.range (chunkArray 10 itemsSeqW).length).map
        (fun i => (batchCalls netSeqW 0 i).map (fun a => (i, a)))).flatten ∧
    (uploadToApi netSeqW 0 itemsSeqW).2 = [(0, 0), (0, 1), (1, 0)] :=
  ⟨uploadSequential_spec netSeqW 0 itemsSeqW (by decide), by decide⟩

/-- Network of the C4 example: batch 2 (0-based 1) always fails with
statusText `boom`; the other batches succeed with ids `id0`, `id2`. -/
def netPermEx : Nat → Nat → FetchOutcome :=
  fun b _ => if b = 1 then FetchOutcome.httpErr "boom"
    else FetchOutcome.ok (some ("id" ++ toString b))

/-- Input of the C4 example: 21 items, hence 3 batches of sizes 10, 10, 1. -/
def itemsPermEx : List UploadItem :=
  (List.range 21).map (fun i => mkItem ("emp" ++ toString i))

/-- C4: when a batch exhausts its retry budget, the loop appends a
failed-batches entry holding the 1-based batch index, the employeeName of
every item of the batch and the last error, and continues with the
remaining batches from the next index (first conjunct, for any state and
batch position); in the spec's 3-batch example where batch 2 fails all 3
attempts, the report has success false, batches 1 and 3 succeeded, batch
2's item names serialized in the failed-batches section of the message,
and batch 3 was attempted (its network call appears after batch 2's three
attempts). -/
theorem uploadPermanentFailure_spec (net : Nat → Nat → FetchOutcome) (now : Nat)
    (batch : List UploadItem) (rest : List (List UploadItem)) (i : Nat)
    (st : UploadState) (p : List EmployeeData)
    (hp : encodeBatch batch = Except.ok p) (hfail : batchSucc net now i = none) :
    (processBatches net now (batch :: rest) i st =
      processBatches net now rest (i + 1)
        { allUploadIds := st.allUploadIds,
          allSuccess := false,
          allMessages := st.allMessages ++
            ["Batch " ++ toString (i + 1) ++ " failed after 3 attempts: " ++
              batchErr net now i],
          failedBatches := st.failedBatches ++
            [⟨i + 1, batch.map (fun it => it.data.employeeName), batchErr net now i⟩],
          trace := st.trace ++ (batchCalls net now i).map (fun a => (i, a)) }) ∧
    (uploadToApi netPermEx 0 itemsPermEx).1.success = false ∧
    (uploadToApi netPermEx 0 itemsPermEx).1.message =
      "Batch 1 uploaded successfully; Batch 2 failed after 3 attempts: boom; Batch 3 uploaded successfully; Failed batches: [\x7b\"batchIndex\":2,\"files\":[\"emp10\",\"emp11\",\"emp12\",\"emp13\",\"emp14\",\"emp15\",\"emp16\",\"emp17\",\"emp18\",\"emp19\"],\"error\":\"boom\"\x7d]" ∧
    (uploadToApi netPermEx 0 itemsPermEx).2 = [(0, 0), (1, 0), (1, 1), (1, 2), (2, 0)] ∧
    (uploadToApi netPermEx 0 itemsPermEx).1.uploadId = some "id0,id2" := by
  refine ⟨?_, by decide, by decide, by decide, by decide⟩
  simp only [processBatches, hp]
  simp only [batchSucc] at hfail
  simp only [hfail]
  rfl

/-- Batch of the witness of C4. -/
def batchPermW : List UploadItem := [mkItem "w"]

/-- Network of the witness of C4: every attempt throws. -/
def netPermW : Nat → Nat → FetchOutcome := fun _ _ => FetchOutcome.exn "err"

/-- Witness for C4: a concrete permanently failing batch appends its
failed-batches entry and hands control to the rest of the loop. -/
theorem uploadPermanentFailure_spec_witness :
    processBatches netPermW 0 (batchPermW :: []) 0 initState =
      processBatches netPermW 0 [] (0 + 1)
        { allUploadIds := initState.allUploadIds,
          allSuccess := false,
          allMessages := initState.allMessages ++
            ["Batch " ++ toString (0 + 1) ++ " failed after 3 attempts: " ++
              batchErr netPermW 0 0],
          failedBatches := initState.failedBatches ++
            [⟨0 + 1, batchPermW.map (fun it => it.data.employeeName), batchErr netPermW 0 0⟩],
          trace := initState.trace ++ (batchCalls netPermW 0 0).map (fun a => (0, a)) } :=
  (uploadPermanentFailure_spec netPermW 0 batchPermW [] 0 initState
    [toPayload (mkData "w") "doc"] rfl rfl).1

/-- Network of the C10 example: every attempt of every batch succeeds
with id `idA`. -/
def netFatalEx : Nat → Nat → FetchOutcome := fun _ _ => FetchOutcome.ok (some "idA")

/-- Input of the C10 example: a full first batch of 10 readable items,
then one item whose encoding rejects with message `enc boom`. -/
def itemsFatalEx : List UploadItem :=
  (List.range 10).map (fun i => mkItem ("f" ++ toString i)) ++
    [⟨Except.error "enc boom", mkData "f10"⟩]

/-- C10: whenever the batch loop ends with an escaped exception, the outer
catch builds the report from the exception alone — success false, the
exception message, and no `uploadId` field at all — regardless of the
state accumulated so far, so identifiers collected from batches that had
already succeeded are discarded (first conjunct); in the concrete example
the loop had already collected id `idA` and a success message from batch 1
when the exception was raised, yet the report carries no uploadId. -/
theorem uploadFatalDiscard_spec (net : Nat → Nat → FetchOutcome) (now : Nat)
    (files : List UploadItem) (m : String) (st : UploadState)
    (h : processBatches net now (chunkArray 10 files) 0 initState = LoopResult.thrown m st) :
    ((uploadToApi net now files).1 =
      { success := false, message := m, uploadId := none }) ∧
    processBatches netFatalEx 0 (chunkArray 10 itemsFatalEx) 0 initState =
      LoopResult.thrown "enc boom"
        ⟨["idA"], true, ["Batch 1 uploaded successfully"], [], [(0, 0)]⟩ ∧
    (uploadToApi netFatalEx 0 itemsFatalEx).1 =
      { success := false, message := "enc boom", uploadId := none } := by
  refine ⟨?_, by decide, by decide⟩
  unfold uploadToApi
  rw [h]

/-- Witness for C10: the concrete run returns the failed report without a
`uploadId` field although batch 1 had succeeded. -/
theorem uploadFatalDiscard_spec_witness :
    (uploadToApi netFatalEx 0 itemsFatalEx).1 =
      { success := false, message := "enc boom", uploadId := none } :=
  (uploadFatalDiscard_spec netFatalEx 0 itemsFatalEx "enc boom"
    ⟨["idA"], true, ["Batch 1 uploaded successfully"], [], [(0, 0)]⟩ (by decide)).1

/-- Network of the C1 counterexample: every attempt succeeds. -/
def netEncEx : Nat → Nat → FetchOutcome := fun _ _ => FetchOutcome.ok (some "id1")

/-- Input of the C1 counterexample: a full first batch of 10 readable
items, then an 11th item whose encoding rejects with message `enc boom`. -/
def itemsEncEx : List UploadItem :=
  (List.range 10).map (fun i => mkItem ("g" ++ toString i)) ++
    [⟨Except.error "enc boom", mkData "g10"⟩]

/-- C1 fails on the code: with 11 items whose 11th has a rejecting
encoding, the encoding of that item throws, yet one network call (batch
1's POST) has already been made — not zero — because `uploadToApi`
encodes each batch inside the loop, after earlier batches were already
transmitted; batch 1's successful per-batch outcome is also absent from
the returned report. -/
theorem uploadEncodeUpfront_cex :
    itemsEncEx.length = 11 ∧
    (itemsEncEx.getD 10 (mkItem "z")).encResult = Except.error "enc boom" ∧
    (uploadToApi netEncEx 0 itemsEncEx).2 = [(0, 0)] ∧
    (uploadToApi netEncEx 0 itemsEncEx).1 =
      { success := false, message := "enc boom", uploadId := none } :=
  ⟨rfl, rfl, rfl, rfl⟩

theorem chunkFuel_nil (size fuel : Nat) : chunkFuel size fuel ([] : List α) = [] := by
  match fuel with
  | 0 => rfl
  | _ + 1 => rfl

theorem chunkArray_single (l : List α) (hne : l ≠ []) (hlen : l.length ≤ 10) :
    chunkArray 10 l = [l] := by
  match l with
  | [] => exact absurd rfl hne
  | a :: rest =>
    show chunkFuel 10 (a :: rest).length (a :: rest) = [a :: rest]
    simp only [List.length_cons, chunkFuel]
    rw [List.take_of_length_le hlen, List.drop_eq_nil_of_le hlen, chunkFuel_nil]

/-- C1 amended: `uploadToApi` encodes each batch's items only when that
batch is reached, so an encoding rejection yields an overall report with
success false, the exception's message and no uploadId, and issues no
further network calls — but calls already made for earlier batches are
not undone and their per-batch outcomes are discarded; only when the
whole input fits in a single batch (at most 10 items) does an encoding
failure guarantee that zero network calls were made. -/
theorem uploadEncodePerBatch_amended (net : Nat → Nat → FetchOutcome) (now : Nat)
    (files : List UploadItem) (m : String) :
    (files.length ≤ 10 → encodeBatch files = Except.error m →
      uploadToApi net now files =
        ({ success := false, message := m, uploadId := none }, [])) ∧
    (∀ st, processBatches net now (chunkArray 10 files) 0 initState = LoopResult.thrown m st →
      (uploadToApi net now files).1 =
        { success := false, message := m, uploadId := none }) := by
  constructor
  · intro hlen herr
    have hne : files ≠ [] := by
      intro hcontra
      rw [hcontra] at herr
      exact Except.noConfusion herr
    unfold uploadToApi
    rw [chunkArray_single files hne hlen]
    simp only [processBatches, herr]
    rfl
  · intro st h
    unfold uploadToApi
    rw [h]

/-- Input of the witness of the amended C1: one item with a rejecting
encoding. -/
def itemsEncW : List UploadItem := [⟨Except.error "e1", mkData "w"⟩]

/-- Network of the witness of the amended C1 (never reached). -/
def netEncW : Nat → Nat → FetchOutcome := fun _ _ => FetchOutcome.ok none

/-- Witness for the amended C1: a single-batch input whose encoding
rejects yields the failed report and an empty trace. -/
theorem uploadEncodePerBatch_amended_witness :
    uploadToApi netEncW 0 itemsEncW =
      ({ success := false, message := "e1", uploadId := none }, []) :=
  (uploadEncodePerBatch_amended netEncW 0 itemsEncW "e1").1 (by decide) rfl
